import Mathlib

/-!
Verification of the expression-evaluation core of cudf_polars
(src/python/cudf_polars/cudf_polars/dsl/expr.py) against its
natural-language specification.

The development shallowly embeds the expression-node hierarchy, the
structural hashing and equality scheme, the aggregation-collection
protocol and the per-kind evaluation rules that the claims refer to.
Columns are lists of optional cells (None models a null row); backend
compute primitives whose internals are out of scope (regex, timestamp
parsing, rounding) are taken as function parameters, exactly as the
spec treats the compute backend as an opaque capability provider.
-/

set_option maxHeartbeats 1600000

/-- Semantic data-type tags of expression nodes (plc.DataType, modelled
by its type id). -/
inductive DType where
  | int8 | int16 | int32 | int64 | uint32
  | float32 | float64 | boolean | string | timestamp
  deriving DecidableEq, Repr

/-- plc.traits.is_floating_point on the modelled type ids. -/
def DType.isFloating : DType → Bool
  | .float32 => true
  | .float64 => true
  | _ => false

/-- A cell value.  Floating-point payloads are carried opaquely (no
arithmetic is performed on them in any verified property). -/
inductive Value where
  | int (i : Int)
  | bool (b : Bool)
  | str (s : String)
  | float (bits : Int)
  deriving DecidableEq, Repr

/-- The stored payload of a LiteralColumn node: a pyarrow array.  It has
an object identity (payloadId, modelling CPython id()) in addition to
its cell contents; LiteralColumn.get_hash hashes the identity while
equality of the ctor-argument tuples compares the contents. -/
structure Payload where
  payloadId : Nat
  data : List (Option Value)
  deriving DecidableEq, Repr

/-- One element of an options tuple (function-specific parameters). -/
inductive OptVal where
  | none
  | b (x : Bool)
  | i (x : Int)
  | s (x : String)
  deriving DecidableEq, Repr

/-- Python truthiness of an options value, used by Agg.collect_agg in
the test `if (isminmax := self.name in ...) and self.options:`. -/
def OptVal.truthy : OptVal → Bool
  | .none => false
  | .b x => x
  | .i x => decide (x ≠ 0)
  | .s x => decide (x ≠ "")

/-- The binary operators stored on BinOp nodes (plc.binaryop.BinaryOperator,
restricted to the operators the translation layer produces). -/
inductive BinOperator where
  | add | sub | mul | div | trueDiv | floorDiv | pymod
  | eq | nullEquals | ne | nullNotEquals | lt | le | gt | ge
  | bitwiseAnd | bitwiseOr | bitwiseXor
  | logicalAnd | logicalOr | nullLogicalAnd | nullLogicalOr
  deriving DecidableEq, Repr

/-- The expression node hierarchy of expr.py.  Each constructor carries
its non-child fields (in the order of the class's _non_child listing)
followed by its child expressions.  RollingWindow and
GroupedRollingWindow are omitted: their constructors unconditionally
raise, so no instance of those kinds can exist. -/
inductive PExpr where
  | literal (dtype : DType) (value : Option Value)
  | literalColumn (dtype : DType) (value : Payload)
  | col (dtype : DType) (name : String)
  | len (dtype : DType)
  | booleanFunction (dtype : DType) (name : String) (options : List OptVal) (children : List PExpr)
  | stringFunction (dtype : DType) (name : String) (options : List OptVal) (children : List PExpr)
  | temporalFunction (dtype : DType) (name : String) (options : List OptVal) (children : List PExpr)
  | unaryFunction (dtype : DType) (name : String) (options : List OptVal) (children : List PExpr)
  | sort (dtype : DType) (options : Bool × Bool × Bool) (child : PExpr)
  | sortBy (dtype : DType) (options : Bool × List Bool × List Bool) (column : PExpr) (byKeys : List PExpr)
  | gather (dtype : DType) (values : PExpr) (indices : PExpr)
  | filter (dtype : DType) (values : PExpr) (mask : PExpr)
  | cast (dtype : DType) (inner : PExpr)
  | agg (dtype : DType) (name : String) (options : OptVal) (children : List PExpr)
  | ternary (dtype : DType) (whenE : PExpr) (thenE : PExpr) (otherwiseE : PExpr)
  | binOp (dtype : DType) (op : BinOperator) (left : PExpr) (right : PExpr)

/-- Hash mixing step for the model of Python's hash combination. -/
def mixh (a b : Nat) : Nat := a * 1000003 + b + 1

/-- Numeric tag of a data type, feeding the hash model. -/
def dtypeTag : DType → Nat
  | .int8 => 0 | .int16 => 1 | .int32 => 2 | .int64 => 3 | .uint32 => 4
  | .float32 => 5 | .float64 => 6 | .boolean => 7 | .string => 8 | .timestamp => 9

/-- Numeric tag of a binary operator, feeding the hash model. -/
def binOpTag : BinOperator → Nat
  | .add => 0 | .sub => 1 | .mul => 2 | .div => 3 | .trueDiv => 4
  | .floorDiv => 5 | .pymod => 6 | .eq => 7 | .nullEquals => 8 | .ne => 9
  | .nullNotEquals => 10 | .lt => 11 | .le => 12 | .gt => 13 | .ge => 14
  | .bitwiseAnd => 15 | .bitwiseOr => 16 | .bitwiseXor => 17
  | .logicalAnd => 18 | .logicalOr => 19 | .nullLogicalAnd => 20 | .nullLogicalOr => 21

/-- Hash model for strings. -/
def stringHashN (s : String) : Nat :=
  s.toList.foldl (fun h c => mixh h c.toNat) 5

/-- Hash model for integers. -/
def intHashN (i : Int) : Nat :=
  2 * i.natAbs + (if i < 0 then 1 else 0)

/-- Hash model for cell values. -/
def valueHashN : Value → Nat
  | .int i => mixh 1 (intHashN i)
  | .bool b => mixh 2 (if b then 1 else 0)
  | .str s => mixh 3 (stringHashN s)
  | .float b => mixh 4 (intHashN b)

/-- Hash model for an optional (possibly null) scalar. -/
def scalarHashN : Option Value → Nat
  | Option.none => 11
  | Option.some v => mixh 12 (valueHashN v)

/-- Hash model for an options tuple. -/
def optValHashN : OptVal → Nat
  | .none => 21
  | .b x => mixh 22 (if x then 1 else 0)
  | .i x => mixh 23 (intHashN x)
  | .s x => mixh 24 (stringHashN x)

/-- Hash model for a list of option values. -/
def optsHashN (l : List OptVal) : Nat :=
  l.foldl (fun h o => mixh h (optValHashN o)) 31

/-- Hash model for a list of booleans. -/
def boolListHashN (l : List Bool) : Nat :=
  l.foldl (fun h x => mixh h (if x then 1 else 0)) 41

/-- Hash model for Sort options. -/
def sortOptsHashN : Bool × Bool × Bool → Nat
  | (a, b, c) => mixh (if a then 1 else 0) (mixh (if b then 1 else 0) (if c then 1 else 0))

/-- Hash model for SortBy options. -/
def sortByOptsHashN : Bool × List Bool × List Bool → Nat
  | (a, b, c) => mixh (if a then 1 else 0) (mixh (boolListHashN b) (boolListHashN c))

mutual

/-- The structural hash of an expression node, modelling
Expr.get_hash, i.e. hash((type(self), self._ctor_arguments(self.children))):
one tag per concrete class mixed with the hashes of the non-child
fields and of the (already hashed) children.  LiteralColumn overrides
get_hash with hash((type(self), self.dtype, id(self.value))): the
payload is hashed by object identity, not value. -/
def hashE : PExpr → Nat
  | .literal d v => mixh 101 (mixh (dtypeTag d) (scalarHashN v))
  | .literalColumn d p => mixh 102 (mixh (dtypeTag d) p.payloadId)
  | .col d n => mixh 103 (mixh (dtypeTag d) (stringHashN n))
  | .len d => mixh 104 (dtypeTag d)
  | .booleanFunction d n o cs =>
      mixh 105 (mixh (dtypeTag d) (mixh (stringHashN n) (mixh (optsHashN o) (hashEList cs))))
  | .stringFunction d n o cs =>
      mixh 106 (mixh (dtypeTag d) (mixh (stringHashN n) (mixh (optsHashN o) (hashEList cs))))
  | .temporalFunction d n o cs =>
      mixh 107 (mixh (dtypeTag d) (mixh (stringHashN n) (mixh (optsHashN o) (hashEList cs))))
  | .unaryFunction d n o cs =>
      mixh 108 (mixh (dtypeTag d) (mixh (stringHashN n) (mixh (optsHashN o) (hashEList cs))))
  | .sort d o c => mixh 109 (mixh (dtypeTag d) (mixh (sortOptsHashN o) (hashE c)))
  | .sortBy d o c bs =>
      mixh 110 (mixh (dtypeTag d) (mixh (sortByOptsHashN o) (mixh (hashE c) (hashEList bs))))
  | .gather d v i => mixh 111 (mixh (dtypeTag d) (mixh (hashE v) (hashE i)))
  | .filter d v m => mixh 112 (mixh (dtypeTag d) (mixh (hashE v) (hashE m)))
  | .cast d c => mixh 113 (mixh (dtypeTag d) (hashE c))
  | .agg d n o cs =>
      mixh 114 (mixh (dtypeTag d) (mixh (stringHashN n) (mixh (optValHashN o) (hashEList cs))))
  | .ternary d a b c => mixh 115 (mixh (dtypeTag d) (mixh (hashE a) (mixh (hashE b) (hashE c))))
  | .binOp d op l r => mixh 116 (mixh (dtypeTag d) (mixh (binOpTag op) (mixh (hashE l) (hashE r))))

/-- Hash of a tuple of child expressions. -/
def hashEList : List PExpr → Nat
  | [] => 51
  | c :: cs => mixh (hashE c) (hashEList cs)

end

mutual

/-- Expr.__eq__: False when the concrete types differ or the (cached)
hashes differ, otherwise is_equal, which compares the ctor-argument
tuples (non-child fields, then children); children are compared with
__eq__ recursively.  The non-child fields compare by Python value
equality; for LiteralColumn pa.Array.__eq__ compares the stored cells
by value (while its hash uses the payload identity). -/
def exprEqFull : PExpr → PExpr → Bool
  | .literal d v, .literal d2 v2 =>
      hashE (.literal d v) == hashE (.literal d2 v2) && d == d2 && v == v2
  | .literalColumn d p, .literalColumn d2 p2 =>
      hashE (.literalColumn d p) == hashE (.literalColumn d2 p2)
        && d == d2 && p.data == p2.data
  | .col d n, .col d2 n2 =>
      hashE (.col d n) == hashE (.col d2 n2) && d == d2 && n == n2
  | .len d, .len d2 => hashE (.len d) == hashE (.len d2) && d == d2
  | .booleanFunction d n o cs, .booleanFunction d2 n2 o2 cs2 =>
      hashE (.booleanFunction d n o cs) == hashE (.booleanFunction d2 n2 o2 cs2)
        && d == d2 && n == n2 && o == o2 && exprEqFullList cs cs2
  | .stringFunction d n o cs, .stringFunction d2 n2 o2 cs2 =>
      hashE (.stringFunction d n o cs) == hashE (.stringFunction d2 n2 o2 cs2)
        && d == d2 && n == n2 && o == o2 && exprEqFullList cs cs2
  | .temporalFunction d n o cs, .temporalFunction d2 n2 o2 cs2 =>
      hashE (.temporalFunction d n o cs) == hashE (.temporalFunction d2 n2 o2 cs2)
        && d == d2 && n == n2 && o == o2 && exprEqFullList cs cs2
  | .unaryFunction d n o cs, .unaryFunction d2 n2 o2 cs2 =>
      hashE (.unaryFunction d n o cs) == hashE (.unaryFunction d2 n2 o2 cs2)
        && d == d2 && n == n2 && o == o2 && exprEqFullList cs cs2
  | .sort d o c, .sort d2 o2 c2 =>
      hashE (.sort d o c) == hashE (.sort d2 o2 c2)
        && d == d2 && o == o2 && exprEqFull c c2
  | .sortBy d o c bs, .sortBy d2 o2 c2 bs2 =>
      hashE (.sortBy d o c bs) == hashE (.sortBy d2 o2 c2 bs2)
        && d == d2 && o == o2 && exprEqFull c c2 && exprEqFullList bs bs2
  | .gather d v i, .gather d2 v2 i2 =>
      hashE (.gather d v i) == hashE (.gather d2 v2 i2)
        && d == d2 && exprEqFull v v2 && exprEqFull i i2
  | .filter d v m, .filter d2 v2 m2 =>
      hashE (.filter d v m) == hashE (.filter d2 v2 m2)
        && d == d2 && exprEqFull v v2 && exprEqFull m m2
  | .cast d c, .cast d2 c2 =>
      hashE (.cast d c) == hashE (.cast d2 c2) && d == d2 && exprEqFull c c2
  | .agg d n o cs, .agg d2 n2 o2 cs2 =>
      hashE (.agg d n o cs) == hashE (.agg d2 n2 o2 cs2)
        && d == d2 && n == n2 && o == o2 && exprEqFullList cs cs2
  | .ternary d a b c, .ternary d2 a2 b2 c2 =>
      hashE (.ternary d a b c) == hashE (.ternary d2 a2 b2 c2)
        && d == d2 && exprEqFull a a2 && exprEqFull b b2 && exprEqFull c c2
  | .binOp d op l r, .binOp d2 op2 l2 r2 =>
      hashE (.binOp d op l r) == hashE (.binOp d2 op2 l2 r2)
        && d == d2 && op == op2 && exprEqFull l l2 && exprEqFull r r2
  | _, _ => false

/-- Elementwise __eq__ over child tuples; tuples of different length
compare unequal. -/
def exprEqFullList : List PExpr → List PExpr → Bool
  | [], [] => true
  | x :: xs, y :: ys => exprEqFull x y && exprEqFullList xs ys
  | _, _ => false

end

/-- Same concrete class and Python-==-equal non-child fields (children
not compared).  For LiteralColumn the payload field compares by value
(pa.Array.__eq__), irrespective of its object identity. -/
def sameKindFieldsEq : PExpr → PExpr → Bool
  | .literal d v, .literal d2 v2 => d == d2 && v == v2
  | .literalColumn d p, .literalColumn d2 p2 => d == d2 && p.data == p2.data
  | .col d n, .col d2 n2 => d == d2 && n == n2
  | .len d, .len d2 => d == d2
  | .booleanFunction d n o _, .booleanFunction d2 n2 o2 _ => d == d2 && n == n2 && o == o2
  | .stringFunction d n o _, .stringFunction d2 n2 o2 _ => d == d2 && n == n2 && o == o2
  | .temporalFunction d n o _, .temporalFunction d2 n2 o2 _ => d == d2 && n == n2 && o == o2
  | .unaryFunction d n o _, .unaryFunction d2 n2 o2 _ => d == d2 && n == n2 && o == o2
  | .sort d o _, .sort d2 o2 _ => d == d2 && o == o2
  | .sortBy d o _ _, .sortBy d2 o2 _ _ => d == d2 && o == o2
  | .gather d _ _, .gather d2 _ _ => d == d2
  | .filter d _ _, .filter d2 _ _ => d == d2
  | .cast d _, .cast d2 _ => d == d2
  | .agg d n o _, .agg d2 n2 o2 _ => d == d2 && n == n2 && o == o2
  | .ternary d _ _ _, .ternary d2 _ _ _ => d == d2
  | .binOp d op _ _, .binOp d2 op2 _ _ => d == d2 && op == op2
  | _, _ => false

/-- The ordered tuple of child expressions of a node. -/
def childrenOf : PExpr → List PExpr
  | .literal _ _ => []
  | .literalColumn _ _ => []
  | .col _ _ => []
  | .len _ => []
  | .booleanFunction _ _ _ cs => cs
  | .stringFunction _ _ _ cs => cs
  | .temporalFunction _ _ _ cs => cs
  | .unaryFunction _ _ _ cs => cs
  | .sort _ _ c => [c]
  | .sortBy _ _ c bs => c :: bs
  | .gather _ v i => [v, i]
  | .filter _ v m => [v, m]
  | .cast _ c => [c]
  | .agg _ _ _ cs => cs
  | .ternary _ a b c => [a, b, c]
  | .binOp _ _ l r => [l, r]

/-- Discriminates the array-literal node kind. -/
def isLiteralColumn : PExpr → Bool
  | .literalColumn _ _ => true
  | _ => false

/-- Sort order metadata of a column (plc.types.Order). -/
inductive SortOrder where
  | ascending | descending
  deriving DecidableEq, Repr

/-- Null placement metadata of a column (plc.types.NullOrder). -/
inductive NullOrder where
  | before | after
  deriving DecidableEq, Repr

/-- The Column value model of cudf_polars.containers: the backend cells
(None models a null row) plus cached sortedness metadata. -/
structure Column where
  cells : List (Option Value)
  isSorted : Bool
  order : SortOrder
  nullOrder : NullOrder
  deriving DecidableEq, Repr

/-- Modelled from the spec: wrapping a freshly produced backend column
in the Column container leaves the sortedness metadata at its
defaults (unsorted, ascending order, nulls before). -/
def mkColumn (cells : List (Option Value)) : Column :=
  { cells := cells, isSorted := false, order := .ascending, nullOrder := .before }

/-- Modelled from the spec: containers.Column.sorted_like (the Column
container module is outside the embedded source slice) copies the
sortedness metadata (is-sorted flag, sort order, null placement) of
the other column onto this column's data. -/
def Column.sortedLike (c other : Column) : Column :=
  { c with isSorted := other.isSorted, order := other.order, nullOrder := other.nullOrder }

/-- The Python exception kinds the embedded code can raise. -/
inductive PError where
  | notImplemented
  | invalidOperation
  | valueError
  | typeError
  | unpackError
  | assertionError
  deriving DecidableEq, Repr

/-- The execution-context tag threaded through every evaluate call. -/
inductive ExecContext where
  | frame | groupby | rolling
  deriving DecidableEq, Repr

/-- The dataframe input of an evaluation: the column-name mapping and
the row count. -/
structure DataFrame where
  columns : List (String × Column)
  numRows : Nat

/-- Lookup of an expression in the substitution mapping; a Python dict
keyed by the expressions' hash/__eq__ scheme, so a stored key hits
exactly when it compares __eq__-equal to the probe. -/
def lookupSub (m : List (PExpr × Column)) (e : PExpr) : Option Column :=
  match m with
  | [] => Option.none
  | (k, c) :: rest => if exprEqFull k e then Option.some c else lookupSub rest e

/-- Expr.evaluate: with no substitution mapping, dispatch to the
kind-specific do_evaluate rule; otherwise try the mapping first
(dict lookup by structural identity) and fall back to do_evaluate on
a KeyError.  The kind-specific rule is the dynamically dispatched
do_evaluate method, passed here as the function argument doEval. -/
def PExpr.evaluate
    (doEval : PExpr → DataFrame → ExecContext → Option (List (PExpr × Column)) → Except PError Column)
    (e : PExpr) (df : DataFrame) (ctx : ExecContext)
    (mapping : Option (List (PExpr × Column))) : Except PError Column :=
  match mapping with
  | Option.none => doEval e df ctx Option.none
  | Option.some m =>
    match lookupSub m e with
    | Option.some c => .ok c
    | Option.none => doEval e df ctx (Option.some m)

/-- The backend reduction requests produced by collect_agg
(plc.aggregation.Aggregation instances; null policies modelled by an
includeNulls flag). -/
inductive AggRequest where
  | collectList
  | count (includeNulls : Bool)
  | min | max | median | mean | sum
  | nunique (includeNulls : Bool)
  | std (ddof : OptVal)
  | var (ddof : OptVal)
  | nthElement (n : Int) (includeNulls : Bool)
  | quantile (q : Option Value) (interp : OptVal)
  deriving DecidableEq, Repr

/-- Aggregation.kind() == plc.aggregation.Kind.COLLECT_LIST. -/
def AggRequest.isCollectList : AggRequest → Bool
  | .collectList => true
  | _ => false

/-- One collected request: (pre-eval expression or none, reduction
request, owning expression). -/
abbrev AggTriple := Option PExpr × AggRequest × PExpr

/-- The aggregation names of Agg._SUPPORTED. -/
def aggSupported : List String :=
  ["min", "max", "median", "n_unique", "first", "last", "mean", "sum",
   "count", "std", "var", "quantile"]

/-- The request Agg.__init__ computes from the aggregation name: the
kind's backend reduction primitive, or none for first/last (which have
no whole-frame reduction primitive).  Unsupported names, and a
quantile whose quantile child is not a literal, raise at construction;
a quantile Agg without exactly two children fails the two-element
unpack with a ValueError. -/
def aggInitRequest (name : String) (options : OptVal) (children : List PExpr) :
    Except PError (Option AggRequest) :=
  if name ∉ aggSupported then .error .notImplemented
  else if name == "min" then .ok (Option.some .min)
  else if name == "max" then .ok (Option.some .max)
  else if name == "median" then .ok (Option.some .median)
  else if name == "n_unique" then .ok (Option.some (.nunique true))
  else if name == "first" || name == "last" then .ok Option.none
  else if name == "mean" then .ok (Option.some .mean)
  else if name == "sum" then .ok (Option.some .sum)
  else if name == "std" then .ok (Option.some (.std options))
  else if name == "var" then .ok (Option.some (.var options))
  else if name == "count" then .ok (Option.some (.count false))
  else
    match children with
    | [_, .literal _ qv] => .ok (Option.some (.quantile qv options))
    | [_, _] => .error .notImplemented
    | _ => .error .unpackError

/-- The unary-function names whose collect_agg raises in a groupby. -/
def unaryCollectUnsupported : List String :=
  ["unique", "drop_nulls", "cum_min", "cum_max", "cum_prod", "cum_sum"]

/-- Expr.collect_agg and its per-kind overrides, walking a node tree in
a groupby context and emitting the flat list of per-group reduction
requests.  Node kinds without an override (function families, sort,
gather, filter, ternary) fall back to the base implementation, which
raises NotImplementedError.  Literal and LiteralColumn contribute no
requests; Col gathers the raw group values as a list; Len counts all
rows including nulls.  Tuple-unpack failures (a destructuring of
children or of a child's requests that does not match) raise a
ValueError, modelled as unpackError. -/
def PExpr.collectAgg : PExpr → Nat → Except PError (List AggTriple)
  | .literal _ _, _ => .ok []
  | .literalColumn _ _, _ => .ok []
  | .col d n, _ => .ok [(Option.some (.col d n), .collectList, .col d n)]
  | .len d, _ => .ok [(Option.none, .count true, .len d)]
  | .unaryFunction d n o cs, depth =>
      if n ∈ unaryCollectUnsupported then .error .notImplemented
      else if depth == 1 then
        .ok [(Option.some (.unaryFunction d n o cs), .collectList, .unaryFunction d n o cs)]
      else
        match cs with
        | [child] => child.collectAgg depth
        | _ => .error .unpackError
  | .cast _ c, depth => c.collectAgg depth
  | .agg d n o cs, depth =>
      if depth ≥ 1 then .error .notImplemented
      else if (n == "min" || n == "max") && o.truthy then .error .notImplemented
      else
        match cs with
        | [child] =>
          match child.collectAgg (depth + 1) with
          | .error e => .error e
          | .ok reqs =>
            match reqs with
            | [(expr, _, _)] =>
              match aggInitRequest n o cs with
              | .error e => .error e
              | .ok req0 =>
                let req1 : Option AggRequest :=
                  if n == "first" then Option.some (.nthElement 0 true)
                  else if n == "last" then Option.some (.nthElement (-1) true)
                  else req0
                match req1 with
                | Option.none => .error .notImplemented
                | Option.some req =>
                  if (n == "min" || n == "max") && d.isFloating then
                    match expr with
                    | Option.none => .error .assertionError
                    | Option.some e0 =>
                      .ok [(Option.some (.unaryFunction d "mask_nans" [] [e0]), req,
                            .agg d n o cs)]
                  else .ok [(expr, req, .agg d n o cs)]
            | _ => .error .unpackError
        | _ => .error .unpackError
  | .binOp d op l r, depth =>
      if depth == 1 then
        .ok [(Option.some (.binOp d op l r), .collectList, .binOp d op l r)]
      else
        match l.collectAgg depth, r.collectAgg depth with
        | .error e, _ => .error e
        | _, .error e => .error e
        | .ok lreqs, .ok rreqs =>
          if (lreqs ++ rreqs).all (fun t => t.2.1.isCollectList) then
            .ok [(Option.some (.binOp d op l r), .collectList, .binOp d op l r)]
          else .ok (lreqs ++ rreqs)
  | _, _ => .error .notImplemented

/-- Python truthiness of the host value of a boolean reduction result:
an invalid (null) scalar converts to None, which is falsy. -/
def optBoolTruthy : Option Bool → Bool
  | Option.none => false
  | Option.some b => b

/-- Number of null rows of a cell list (Column.null_count). -/
def nullCount (cells : List (Option Value)) : Nat :=
  (cells.filter Option.isNone).length

/-- plc.reduce.reduce with the any/all boolean aggregation: nulls are
excluded from the reduction; reducing a column with no valid rows
yields an invalid scalar, modelled as none. -/
def reduceAnyAll (isAny : Bool) (cells : List (Option Bool)) : Option Bool :=
  let valids := cells.filterMap id
  if valids.isEmpty then Option.none
  else Option.some (if isAny then valids.any id else valids.all id)

/-- Number of null rows of a boolean cell list. -/
def nullCountB (cells : List (Option Bool)) : Nat :=
  (cells.filter Option.isNone).length

/-- The Any/All branch of BooleanFunction.do_evaluate (expr.py 578-600),
operating on the evaluated sole child column: compute the plain
reduction; when ignore_nulls is false and the input has nulls,
post-process per the Kleene truth tables, replacing a false Any or a
true All by an all-null length-1 column; otherwise materialise the
reduction scalar as a length-1 column. -/
def booleanAnyAll (isAny : Bool) (ignoreNulls : Bool) (cells : List (Option Bool)) :
    List (Option Bool) :=
  let result := reduceAnyAll isAny cells
  if !ignoreNulls && nullCountB cells > 0 then
    if (isAny && !optBoolTruthy result) || (!isAny && optBoolTruthy result) then
      [Option.none]
    else [result]
  else [result]

/-- The Strptime branch of StringFunction.do_evaluate (expr.py 911-942),
operating on the evaluated child column.  The backend primitives are
parameters: isTs is plc.strings.convert.convert_datetime.is_timestamp
for the stored format (null rows propagate as null) and toTs is
to_timestamps for the same format on rows known to parse.  Strict
mode reduce-ANDs the row validity and raises InvalidOperationError
when that is not truthy; when every row parses the branch body ends
without returning, so control falls through the elif chain to the
raise NotImplementedError at the end of do_evaluate (expr.py 956).
Non-strict mode scatters null over the rows that fail validation and
converts the result. -/
def strptimeEvaluate (isTs : String → Bool) (toTs : String → Int)
    (strict : Bool) (col : List (Option String)) : Except PError (List (Option Int)) :=
  let isTimestamps : List (Option Bool) := col.map (Option.map isTs)
  if strict then
    if !optBoolTruthy (reduceAnyAll false isTimestamps) then
      .error .invalidOperation
    else
      .error .notImplemented
  else
    let notTimestamps : List (Option Bool) := isTimestamps.map (Option.map (!·))
    let res : List (Option String) :=
      (col.zip notTimestamps).map (fun p => if p.2 == Option.some true then Option.none else p.1)
    .ok (res.map (Option.map toTs))

/-- The host-side stop-index computation of the string Slice branch of
StringFunction.do_evaluate (expr.py 847-857): polars offset+length
slicing translated to the half-open backend interval; none models the
null stop the backend reads as scan-to-end-of-string. -/
def sliceStop (start : Int) (length : Option Int) : Option Int :=
  if length == Option.some 0 then Option.some start
  else
    match length with
    | Option.none => Option.none
    | Option.some l =>
      if start < 0 && l ≥ -start then Option.none else Option.some (start + l)

/-- The string Slice branch of StringFunction.do_evaluate: the backend
slice primitive (a parameter) receives the host-computed start and
stop of sliceStop and is mapped over the evaluated child column. -/
def sliceEvaluate (backendSlice : Int → Option Int → String → String)
    (col : List (Option String)) (start : Int) (length : Option Int) :
    List (Option String) :=
  col.map (Option.map (backendSlice start (sliceStop start length)))

/-- plc.copying.gather over a single-column table: each gather-map entry
indexes the values column, negative entries index from the end; with
the NULLIFY out-of-bounds policy an entry outside the valid range
produces a null output row.  (With DONT_CHECK an out-of-bounds entry
is undefined behaviour in the backend; the embedding returns null,
and the code only takes that path after its host-side bounds check,
so the flag only records which policy the call passed.) -/
def plcGather (values : List (Option Value)) (gmap : List Int) (_nullify : Bool) :
    List (Option Value) :=
  gmap.map fun i =>
    let m : Int := values.length
    if 0 ≤ i && i < m then (values.get? i.toNat).getD Option.none
    else if -m ≤ i && i < 0 then (values.get? (i + m).toNat).getD Option.none
    else Option.none

/-- Gather.do_evaluate (expr.py 1392-1422), operating on the evaluated
values and indices columns and the frame row count n.  The host
fetches the minmax reduction of the index column (invalid scalars,
from an empty or all-null index column, convert to None); comparing
None against n is a Python TypeError.  In-range indices proceed: a
nulled index column has its nulls replaced by the out-of-bounds
sentinel n and gathers under the NULLIFY policy, an all-valid index
column gathers unchecked. -/
def gatherEvaluate (values : List (Option Value)) (indices : List (Option Int)) (n : Nat) :
    Except PError (List (Option Value)) :=
  let valids := indices.filterMap id
  match valids.max?, valids.min? with
  | Option.none, _ => .error .typeError
  | _, Option.none => .error .typeError
  | Option.some hi, Option.some lo =>
    if hi ≥ (n : Int) || lo < -(n : Int) then .error .valueError
    else if 0 < (indices.filter Option.isNone).length then
      .ok (plcGather values (indices.map (fun i => i.getD (n : Int))) true)
    else
      .ok (plcGather values (indices.map (fun i => i.getD 0)) false)

/-- The round branch of UnaryFunction.do_evaluate (expr.py 1147-1157):
the backend rounding primitive (decimal places and HALF_UP method
folded into the elementwise parameter rnd) is applied to the
evaluated child column and the result column is marked sorted_like
the input. -/
def roundEvaluate (rnd : Value → Value) (values : Column) : Column :=
  (mkColumn (values.cells.map (Option.map rnd))).sortedLike values

/-- Claim C10: for every round unary-function evaluation, the output
column carries the same sortedness metadata (is-sorted flag, sort
order, null placement) as the evaluated input column. -/
theorem round_preserves_sortedness :
    ∀ (rnd : Value → Value) (values : Column),
      (roundEvaluate rnd values).isSorted = values.isSorted ∧
      (roundEvaluate rnd values).order = values.order ∧
      (roundEvaluate rnd values).nullOrder = values.nullOrder := by
  intro rnd values
  simp [roundEvaluate, mkColumn, Column.sortedLike]

/-- Claim C8: with a substitution mapping supplied and containing the
node by structural identity, evaluate returns the mapped column
unchanged without consulting the kind-specific rule; in every other
case (no mapping, or a mapping miss) it returns the result of the
kind-specific do_evaluate rule, quantified here over every possible
dispatch function. -/
theorem evaluate_mapping_shortcircuit :
    (∀ doEval (e : PExpr) df ctx,
      PExpr.evaluate doEval e df ctx Option.none = doEval e df ctx Option.none) ∧
    (∀ doEval (e : PExpr) df ctx m c, lookupSub m e = Option.some c →
      PExpr.evaluate doEval e df ctx (Option.some m) = .ok c) ∧
    (∀ doEval (e : PExpr) df ctx m, lookupSub m e = Option.none →
      PExpr.evaluate doEval e df ctx (Option.some m) = doEval e df ctx (Option.some m)) ∧
    (∀ doEval (k e : PExpr) (c : Column) df ctx, exprEqFull k e = true →
      PExpr.evaluate doEval e df ctx (Option.some [(k, c)]) = .ok c) := by
  refine ⟨fun _ _ _ _ => rfl, ?_, ?_, ?_⟩
  · intro doEval e df ctx m c h
    simp [PExpr.evaluate, h]
  · intro doEval e df ctx m h
    simp [PExpr.evaluate, h]
  · intro doEval k e c df ctx h
    simp [PExpr.evaluate, lookupSub, h]

/-- Witness for C8: a mapping keyed by a structurally identical column
reference short-circuits evaluation to the stored column. -/
theorem evaluate_mapping_shortcircuit_witness :
    PExpr.evaluate (fun _ _ _ _ => .error .notImplemented) (.col .int64 "a")
      ⟨[], 0⟩ .frame (Option.some [(.col .int64 "a", mkColumn [Option.some (.int 3)])])
      = .ok (mkColumn [Option.some (.int 3)]) :=
  evaluate_mapping_shortcircuit.2.2.2 (fun _ _ _ _ => .error .notImplemented)
    (.col .int64 "a") (.col .int64 "a") (mkColumn [Option.some (.int 3)])
    ⟨[], 0⟩ .frame (by decide)

/-- Claim C9: on an empty or entirely null index column, the host-side
minmax values are absent and the bounds comparison raises a Python
TypeError, not the documented out-of-bounds condition and not a
successful (all-null) gather: the Gather bounds-check is not total. -/
theorem gather_minmax_not_total (values : List (Option Value))
    (indices : List (Option Int)) (n : Nat)
    (h : indices.filterMap id = []) :
    gatherEvaluate values indices n = .error .typeError ∧
    gatherEvaluate values indices n ≠ .error .valueError ∧
    ∀ out, gatherEvaluate values indices n ≠ .ok out := by
  have hmain : gatherEvaluate values indices n = .error .typeError := by
    simp [gatherEvaluate, h]
  exact ⟨hmain, by simp [hmain], fun out => by simp [hmain]⟩

/-- Witness for C9: gathering with an all-null index column raises the
TypeError. -/
theorem gather_minmax_not_total_witness :
    gatherEvaluate [Option.some (.int 1)] [Option.none, Option.none] 1 = .error .typeError :=
  (gather_minmax_not_total [Option.some (.int 1)] [Option.none, Option.none] 1 (by decide)).1

/-- Claim C7: for a string Slice with literal integer offset start and
length, the backend stop index is start+length, except stop = start
when length is 0, and stop is unbounded (none, scan to end) when
start is negative and length is at least -start; the backend slice
call receives exactly this computed stop. -/
theorem slice_stop_spec (start l : Int) :
    (l = 0 → sliceStop start (Option.some l) = Option.some start) ∧
    (l ≠ 0 → start < 0 → l ≥ -start → sliceStop start (Option.some l) = Option.none) ∧
    (l ≠ 0 → ¬(start < 0 ∧ l ≥ -start) →
      sliceStop start (Option.some l) = Option.some (start + l)) ∧
    (∀ backendSlice col, sliceEvaluate backendSlice col start (Option.some l) =
      col.map (Option.map (backendSlice start (sliceStop start (Option.some l))))) := by
  refine ⟨?_, ?_, ?_, fun _ _ => rfl⟩
  · intro h0
    subst h0
    simp [sliceStop]
  · intro hne hneg hlen
    simp only [sliceStop]
    rw [if_neg (by simp [hne])]
    simp [hneg, hlen]
  · intro hne hnot
    simp only [sliceStop]
    rw [if_neg (by simp [hne])]
    rw [if_neg (by simpa [Bool.and_eq_true, decide_eq_true_eq] using hnot)]

/-- Witness for C7: the worked examples of the spec, slice("hello",-3,2)
computing stop -1 and a negative start whose window reaches the end of
the string computing an unbounded stop. -/
theorem slice_stop_spec_witness :
    sliceStop (-3) (Option.some 2) = Option.some (-1) ∧
    sliceStop (-3) (Option.some 3) = Option.none ∧
    sliceStop 1 (Option.some 0) = Option.some 1 := by
  refine ⟨?_, ?_, ?_⟩
  · have h := (slice_stop_spec (-3) 2).2.2.1 (by decide) (by decide)
    simpa using h
  · exact (slice_stop_spec (-3) 3).2.1 (by decide) (by decide) (by decide)
  · exact (slice_stop_spec 1 0).1 rfl

/-- Claim C5: for any/all with ignore_nulls=false, a column containing a
null yields an all-null length-1 result exactly when the plain
reduction would be false for any or true for all; otherwise a
length-1 column holding the plain reduction value, with the four
Kleene examples any([T,null])=T, any([F,null])=null,
all([F,null])=F, all([T,null])=null. -/
theorem any_all_kleene :
    (∀ (isAny : Bool) (cells : List (Option Bool)),
      booleanAnyAll isAny false cells =
        if 0 < nullCountB cells ∧
            ((isAny = true ∧ reduceAnyAll isAny cells = Option.some false) ∨
             (isAny = false ∧ reduceAnyAll isAny cells = Option.some true)) then
          [Option.none]
        else [reduceAnyAll isAny cells]) ∧
    booleanAnyAll true false [Option.some true, Option.none] = [Option.some true] ∧
    booleanAnyAll true false [Option.some false, Option.none] = [Option.none] ∧
    booleanAnyAll false false [Option.some false, Option.none] = [Option.some false] ∧
    booleanAnyAll false false [Option.some true, Option.none] = [Option.none] := by
  refine ⟨?_, by decide, by decide, by decide, by decide⟩
  intro isAny cells
  rcases hnc : nullCountB cells with _ | k
  · simp [booleanAnyAll, hnc]
  · rcases hr : reduceAnyAll isAny cells with _ | b
    · cases isAny <;> simp [booleanAnyAll, hnc, hr, optBoolTruthy]
    · cases isAny <;> cases b <;> simp [booleanAnyAll, hnc, hr, optBoolTruthy]

/-- Helper for the non-strict Strptime path: scattering null over the
rows whose validity mask is false nulls exactly the rows that fail to
parse. -/
theorem strptime_scatter_eq (isTs : String → Bool) (col : List (Option String)) :
    (col.zip ((col.map (Option.map isTs)).map (Option.map (!·)))).map
        (fun p => if p.2 == Option.some true then Option.none else p.1)
      = col.map (fun c => c.bind (fun s => if isTs s then Option.some s else Option.none)) := by
  induction col with
  | nil => rfl
  | cons c cs ih =>
    simp only [List.map_cons, List.zip_cons_cons, ih]
    rcases c with _ | s
    · rfl
    · rcases h : isTs s <;> simp [h]

/-- Claim C1 (code bug): with strict=true, Strptime raises
InvalidOperationError when some row fails to parse, but when every
row parses the branch falls through without returning and raises
NotImplementedError instead of returning the converted column, so
strict evaluation never returns a column; with strict=false,
evaluation never raises and rows failing validation are nulled out
before conversion. -/
theorem strptime_strict_fallthrough :
    (∀ (isTs : String → Bool) (toTs : String → Int) (col : List (Option String)) (out : List (Option Int)),
      strptimeEvaluate isTs toTs true col ≠ .ok out) ∧
    (∀ (isTs : String → Bool) (toTs : String → Int) (col : List (Option String)) (e : PError),
      strptimeEvaluate isTs toTs false col ≠ .error e) ∧
    (∀ (isTs : String → Bool) (toTs : String → Int) (col : List (Option String)),
      strptimeEvaluate isTs toTs false col =
        .ok (col.map (fun c =>
          (c.bind (fun s => if isTs s then Option.some s else Option.none)).map toTs))) ∧
    strptimeEvaluate (fun _ => true) (fun _ => 0) true [Option.some "2000-01-01"]
      = .error .notImplemented ∧
    (fun (_ : String) => true) "2000-01-01" = true ∧
    strptimeEvaluate (fun s => s != "bad") (fun _ => 0) true
        [Option.some "bad", Option.some "2000-01-01"] = .error .invalidOperation ∧
    strptimeEvaluate (fun s => s != "bad") (fun _ => 0) false
        [Option.some "bad", Option.some "2000-01-01", Option.none]
      = .ok [Option.none, Option.some 0, Option.none] := by
  have hform : ∀ (isTs : String → Bool) (toTs : String → Int) (col : List (Option String)),
      strptimeEvaluate isTs toTs false col =
        .ok (col.map (fun c =>
          (c.bind (fun s => if isTs s then Option.some s else Option.none)).map toTs)) := by
    intro isTs toTs col
    simp only [strptimeEvaluate, Bool.false_eq_true, if_false]
    rw [strptime_scatter_eq isTs col]
    simp [List.map_map, Function.comp_def]
  refine ⟨?_, ?_, hform, rfl, rfl, rfl, ?_⟩
  · intro isTs toTs col out
    simp only [strptimeEvaluate]
    rcases optBoolTruthy (reduceAnyAll false (col.map (Option.map isTs))) <;> simp
  · intro isTs toTs col e
    rw [hform]
    simp
  · rw [hform]
    rfl

/-- Claim C4: BinOp.collect_agg at depth 1 emits a single
gather-as-list request for the whole subtree; at depth 0 it collects
from both children and collapses to one gather-as-list request when
every collected request is itself a gather-as-list placeholder,
otherwise returning the two request lists concatenated unchanged in
left-right order. -/
theorem binop_collect_agg_spec (d : DType) (op : BinOperator) (l r : PExpr)
    (lreqs rreqs : List AggTriple)
    (hl : l.collectAgg 0 = .ok lreqs) (hr : r.collectAgg 0 = .ok rreqs) :
    ((PExpr.binOp d op l r).collectAgg 1 =
      .ok [(Option.some (.binOp d op l r), .collectList, .binOp d op l r)]) ∧
    ((PExpr.binOp d op l r).collectAgg 0 =
      if (lreqs ++ rreqs).all (fun t => t.2.1.isCollectList) then
        .ok [(Option.some (.binOp d op l r), .collectList, .binOp d op l r)]
      else .ok (lreqs ++ rreqs)) := by
  constructor
  · simp [PExpr.collectAgg]
  · simp only [PExpr.collectAgg, hl, hr]
    rfl

/-- Witness for C4: a sum of two plain columns at depth 0 collapses to a
single gather-as-list request for the combined expression. -/
theorem binop_collect_agg_witness :
    (PExpr.binOp .int64 .add (.col .int64 "a") (.col .int64 "b")).collectAgg 0 =
      .ok [(Option.some (PExpr.binOp .int64 .add (.col .int64 "a") (.col .int64 "b")),
            .collectList,
            PExpr.binOp .int64 .add (.col .int64 "a") (.col .int64 "b"))] := by
  have h := (binop_collect_agg_spec .int64 .add (.col .int64 "a") (.col .int64 "b")
      [(Option.some (.col .int64 "a"), .collectList, .col .int64 "a")]
      [(Option.some (.col .int64 "b"), .collectList, .col .int64 "b")] rfl rfl).2
  simpa using h

/-- Claim C6: Gather bounds-checks the index column's minmax against
the frame row count before the backend call, raising out-of-bounds
exactly when max is at least n or min is below -n; an in-bounds index
column with nulls has its nulls replaced by the sentinel n and
gathers under the NULLIFY policy, so the output rows at null indices
are null; an all-valid index column takes the unchecked path. -/
theorem gather_bounds_spec (values : List (Option Value)) (indices : List (Option Int))
    (n : Nat) (hi lo : Int)
    (hmax : (indices.filterMap id).max? = Option.some hi)
    (hmin : (indices.filterMap id).min? = Option.some lo)
    (hlen : values.length = n) :
    (hi ≥ (n : Int) ∨ lo < -(n : Int) → gatherEvaluate values indices n = .error .valueError) ∧
    (¬(hi ≥ (n : Int) ∨ lo < -(n : Int)) →
      (0 < (indices.filter Option.isNone).length →
        gatherEvaluate values indices n =
          .ok (plcGather values (indices.map (fun i => i.getD (n : Int))) true)) ∧
      (0 < (indices.filter Option.isNone).length →
        ∀ j : Nat, indices[j]? = Option.some Option.none →
          (plcGather values (indices.map (fun i => i.getD (n : Int))) true)[j]?
            = Option.some Option.none) ∧
      ((indices.filter Option.isNone).length = 0 →
        gatherEvaluate values indices n =
          .ok (plcGather values (indices.map (fun i => i.getD 0)) false))) := by
  constructor
  · intro hcond
    simp only [gatherEvaluate, hmax, hmin]
    rw [if_pos]
    simpa using hcond
  · intro hcond
    refine ⟨?_, ?_, ?_⟩
    · intro hnul
      simp only [gatherEvaluate, hmax, hmin]
      rw [if_neg (by simpa using hcond), if_pos (by simpa using hnul)]
    · intro hnul j hj
      simp only [plcGather, List.getElem?_map, hj]
      simp [hlen]
    · intro hnonul
      simp only [gatherEvaluate, hmax, hmin]
      rw [if_neg (by simpa using hcond), if_neg (by simp [hnonul])]

/-- Witness for C6: an in-bounds gather with one null index takes the
sentinel-plus-NULLIFY path, and an index equal to the row count
raises the out-of-bounds error. -/
theorem gather_bounds_spec_witness :
    gatherEvaluate [Option.some (.int 7), Option.some (.int 8)] [Option.some 0, Option.none] 2
      = .ok (plcGather [Option.some (.int 7), Option.some (.int 8)] [0, 2] true) ∧
    gatherEvaluate [Option.some (.int 7), Option.some (.int 8)] [Option.some 2] 2
      = .error .valueError := by
  constructor
  · have h := ((gather_bounds_spec [Option.some (.int 7), Option.some (.int 8)]
      [Option.some 0, Option.none] 2 0 0 rfl rfl rfl).2 (by decide)).1 (by decide)
    simpa using h
  · exact (gather_bounds_spec [Option.some (.int 7), Option.some (.int 8)]
      [Option.some 2] 2 2 2 rfl rfl rfl).1 (by decide)

/-- Claim C3 (amended): for every Agg node with exactly one child whose
depth-1 collection yields exactly one request, collect_agg raises the
unsupported error at depth at least 1 and for NaN-propagating
min/max; otherwise it emits exactly one (pre-eval, request, self)
triple in which first maps to nth-element 0 including nulls, last to
nth-element -1 including nulls, and every other kind to the backend
reduction primitive computed at construction, and min/max over a
floating output type wraps the (present) pre-eval child expression in
a mask-NaNs-to-null unary node. -/
theorem agg_collect_agg_spec :
    (∀ (d : DType) (n : String) (o : OptVal) (cs : List PExpr) (depth : Nat),
      1 ≤ depth → (PExpr.agg d n o cs).collectAgg depth = .error .notImplemented) ∧
    (∀ (d : DType) (n : String) (o : OptVal) (cs : List PExpr),
      (n = "min" ∨ n = "max") → o.truthy = true →
      (PExpr.agg d n o cs).collectAgg 0 = .error .notImplemented) ∧
    (∀ (d : DType) (n : String) (o : OptVal) (child : PExpr) (oe : Option PExpr)
        (cr : AggRequest) (cself : PExpr) (req0 : Option AggRequest) (req : AggRequest),
      ¬((n = "min" ∨ n = "max") ∧ o.truthy = true) →
      child.collectAgg 1 = .ok [(oe, cr, cself)] →
      aggInitRequest n o [child] = .ok req0 →
      (if n = "first" then Option.some (AggRequest.nthElement 0 true)
       else if n = "last" then Option.some (AggRequest.nthElement (-1) true)
       else req0) = Option.some req →
      ¬((n = "min" ∨ n = "max") ∧ d.isFloating = true) →
      (PExpr.agg d n o [child]).collectAgg 0 = .ok [(oe, req, .agg d n o [child])]) ∧
    (∀ (d : DType) (n : String) (o : OptVal) (child : PExpr) (e0 : PExpr)
        (cr : AggRequest) (cself : PExpr) (req0 : Option AggRequest) (req : AggRequest),
      ¬((n = "min" ∨ n = "max") ∧ o.truthy = true) →
      child.collectAgg 1 = .ok [(Option.some e0, cr, cself)] →
      aggInitRequest n o [child] = .ok req0 →
      (if n = "first" then Option.some (AggRequest.nthElement 0 true)
       else if n = "last" then Option.some (AggRequest.nthElement (-1) true)
       else req0) = Option.some req →
      (n = "min" ∨ n = "max") → d.isFloating = true →
      (PExpr.agg d n o [child]).collectAgg 0 =
        .ok [(Option.some (.unaryFunction d "mask_nans" [] [e0]), req, .agg d n o [child])]) := by
  refine ⟨?_, ?_, ?_, ?_⟩
  · intro d n o cs depth hdep
    cases depth with
    | zero => omega
    | succ k =>
      rw [PExpr.collectAgg.eq_def]
      simp only []
      rw [if_pos (by omega : (k + 1) ≥ 1)]
  · intro d n o cs hn ht
    rw [PExpr.collectAgg.eq_def]
    simp only []
    rw [if_neg (by omega : ¬ (0:Nat) ≥ 1)]
    rw [if_pos]
    rcases hn with h | h <;> simp [h, ht]
  · intro d n o child oe cr cself req0 req hnm hch hinit hreq hnf
    have hbf : ((n == "min" || n == "max") && d.isFloating) = false := by
      rcases h1 : (n == "min" || n == "max")
      · simp
      · rcases h2 : d.isFloating
        · simp
        · exact ((hnf ⟨by simpa using h1, h2⟩).elim)
    have hfl : (if (n == "first") = true then Option.some (AggRequest.nthElement 0 true)
        else if (n == "last") = true then Option.some (AggRequest.nthElement (-1) true)
        else req0) = Option.some req := by simpa using hreq
    have hch' : child.collectAgg (0 + 1) = Except.ok [(oe, cr, cself)] := hch
    simp only [PExpr.collectAgg, hch', hinit, hfl, hbf]
    simp
    intro h1
    rcases h2 : o.truthy
    · rfl
    · exact ((hnm ⟨h1, h2⟩).elim)
  · intro d n o child e0 cr cself req0 req hnm hch hinit hreq hf hfd
    have hbf : ((n == "min" || n == "max") && d.isFloating) = true := by
      rcases hf with h | h <;> simp [h, hfd]
    have hfl : (if (n == "first") = true then Option.some (AggRequest.nthElement 0 true)
        else if (n == "last") = true then Option.some (AggRequest.nthElement (-1) true)
        else req0) = Option.some req := by simpa using hreq
    have hch' : child.collectAgg (0 + 1) = Except.ok [(Option.some e0, cr, cself)] := hch
    simp only [PExpr.collectAgg, hch', hinit, hfl, hbf]
    simp
    intro h1
    rcases h2 : o.truthy
    · rfl
    · exact ((hnm ⟨h1, h2⟩).elim)

/-- Counterexample for C3 as stated: a legally constructed quantile Agg
carries the quantile literal as a second child, so at depth 0 with no
NaN-propagating option its collect_agg fails the sole-child
destructuring with a ValueError instead of emitting a triple or an
unsupported error. -/
theorem agg_collect_agg_quantile_cex :
    aggInitRequest "quantile" (.s "linear")
        [PExpr.col .float64 "a", PExpr.literal .float64 (Option.some (.float 0))]
      = .ok (Option.some (.quantile (Option.some (.float 0)) (.s "linear"))) ∧
    (PExpr.agg .float64 "quantile" (.s "linear")
        [PExpr.col .float64 "a", PExpr.literal .float64 (Option.some (.float 0))]).collectAgg 0
      = .error .unpackError ∧
    PError.unpackError ≠ PError.notImplemented := by
  refine ⟨rfl, rfl, by decide⟩

/-- Witness for C3: first over a column maps to nth-element 0 including
nulls; min over a float column wraps the child in mask_nans; a nested
aggregation and a NaN-propagating min/max raise the unsupported
error. -/
theorem agg_collect_agg_witness :
    (PExpr.agg .int64 "first" OptVal.none [PExpr.col .int64 "a"]).collectAgg 0
      = .ok [(Option.some (PExpr.col .int64 "a"), .nthElement 0 true,
              PExpr.agg .int64 "first" OptVal.none [PExpr.col .int64 "a"])] ∧
    (PExpr.agg .float64 "min" (OptVal.b false) [PExpr.col .float64 "x"]).collectAgg 0
      = .ok [(Option.some (PExpr.unaryFunction .float64 "mask_nans" [] [PExpr.col .float64 "x"]),
              .min, PExpr.agg .float64 "min" (OptVal.b false) [PExpr.col .float64 "x"])] ∧
    (PExpr.agg .int64 "sum" OptVal.none [PExpr.col .int64 "a"]).collectAgg 1
      = .error .notImplemented ∧
    (PExpr.agg .float64 "max" (OptVal.b true) [PExpr.col .float64 "x"]).collectAgg 0
      = .error .notImplemented := by
  refine ⟨?_, ?_, ?_, ?_⟩
  · exact agg_collect_agg_spec.2.2.1 .int64 "first" OptVal.none (PExpr.col .int64 "a")
      (Option.some (PExpr.col .int64 "a")) .collectList (PExpr.col .int64 "a")
      Option.none (.nthElement 0 true) (by decide) rfl rfl (by decide) (by decide)
  · exact agg_collect_agg_spec.2.2.2 .float64 "min" (OptVal.b false) (PExpr.col .float64 "x")
      (PExpr.col .float64 "x") .collectList (PExpr.col .float64 "x")
      (Option.some .min) .min (by decide) rfl rfl (by decide) (Or.inl rfl) rfl
  · exact agg_collect_agg_spec.1 .int64 "sum" OptVal.none [PExpr.col .int64 "a"] 1 (by omega)
  · exact agg_collect_agg_spec.2.1 .float64 "max" (OptVal.b true) [PExpr.col .float64 "x"]
      (Or.inr rfl) rfl

/-- Two __eq__-equal expressions have equal hashes: __eq__ checks the
cached hashes before comparing fields. -/
theorem exprEqFull_hash_eq : ∀ a b : PExpr, exprEqFull a b = true → hashE a = hashE b := by
  intro a b h
  cases a <;> cases b <;>
    simp only [exprEqFull, Bool.and_eq_true, beq_iff_eq, Bool.false_eq_true] at h <;>
    first
      | exact h.elim
      | exact h.1
      | exact h.1.1
      | exact h.1.1.1
      | exact h.1.1.1.1

/-- Elementwise __eq__-equal child tuples have equal tuple hashes. -/
theorem exprEqFullList_hash_eq : ∀ xs ys : List PExpr,
    exprEqFullList xs ys = true → hashEList xs = hashEList ys := by
  intro xs
  induction xs with
  | nil => intro ys h; cases ys with
    | nil => rfl
    | cons y ys => simp [exprEqFullList] at h
  | cons x xs ih =>
    intro ys h
    cases ys with
    | nil => simp [exprEqFullList] at h
    | cons y ys =>
      simp only [exprEqFullList, Bool.and_eq_true] at h
      simp only [hashEList, exprEqFull_hash_eq x y h.1, ih ys h.2]

/-- Whenever __eq__ holds, the two nodes have the same kind with equal
non-child fields and pairwise __eq__-equal children. -/
theorem exprEqFull_imp : ∀ a b : PExpr, exprEqFull a b = true →
    sameKindFieldsEq a b = true ∧ exprEqFullList (childrenOf a) (childrenOf b) = true := by
  intro a b h
  cases a <;> cases b <;> simp_all [exprEqFull, sameKindFieldsEq, childrenOf, exprEqFullList]

/-- Equal kind, equal non-child fields and pairwise-equal children give
equal hashes and __eq__, for every node kind other than
LiteralColumn. -/
theorem eq_hash_part1 : ∀ a b : PExpr, isLiteralColumn a = false →
    sameKindFieldsEq a b = true →
    exprEqFullList (childrenOf a) (childrenOf b) = true →
    hashE a = hashE b ∧ exprEqFull a b = true := by
  intro a b hlc hk hc
  cases a with
  | literal d v =>
    cases b <;> simp only [sameKindFieldsEq, Bool.and_eq_true, beq_iff_eq, Bool.false_eq_true] at hk
    rename_i d2 v2
    obtain ⟨hd, hv⟩ := hk
    subst hd hv
    exact ⟨rfl, by simp [exprEqFull, exprEqFullList]⟩
  | literalColumn d p =>
    exact absurd hlc (by simp [isLiteralColumn])
  | col d n =>
    cases b <;> simp only [sameKindFieldsEq, Bool.and_eq_true, beq_iff_eq, Bool.false_eq_true] at hk
    rename_i d2 n2
    obtain ⟨hd, hn⟩ := hk
    subst hd hn
    exact ⟨rfl, by simp [exprEqFull, exprEqFullList]⟩
  | len d =>
    cases b <;> simp only [sameKindFieldsEq, Bool.and_eq_true, beq_iff_eq, Bool.false_eq_true] at hk
    rename_i d2
    obtain rfl := hk
    exact ⟨rfl, by simp [exprEqFull, exprEqFullList]⟩
  | booleanFunction d n o cs =>
    cases b <;> simp only [sameKindFieldsEq, Bool.and_eq_true, beq_iff_eq, Bool.false_eq_true] at hk
    rename_i d2 n2 o2 cs2
    obtain ⟨⟨hd, hn⟩, ho⟩ := hk
    subst hd hn ho
    have hc2 : exprEqFullList cs cs2 = true := by simpa [childrenOf] using hc
    have hh := exprEqFullList_hash_eq _ _ hc2
    exact ⟨by simp [hashE, hh], by simp [exprEqFull, hashE, hh, hc2]⟩
  | stringFunction d n o cs =>
    cases b <;> simp only [sameKindFieldsEq, Bool.and_eq_true, beq_iff_eq, Bool.false_eq_true] at hk
    rename_i d2 n2 o2 cs2
    obtain ⟨⟨hd, hn⟩, ho⟩ := hk
    subst hd hn ho
    have hc2 : exprEqFullList cs cs2 = true := by simpa [childrenOf] using hc
    have hh := exprEqFullList_hash_eq _ _ hc2
    exact ⟨by simp [hashE, hh], by simp [exprEqFull, hashE, hh, hc2]⟩
  | temporalFunction d n o cs =>
    cases b <;> simp only [sameKindFieldsEq, Bool.and_eq_true, beq_iff_eq, Bool.false_eq_true] at hk
    rename_i d2 n2 o2 cs2
    obtain ⟨⟨hd, hn⟩, ho⟩ := hk
    subst hd hn ho
    have hc2 : exprEqFullList cs cs2 = true := by simpa [childrenOf] using hc
    have hh := exprEqFullList_hash_eq _ _ hc2
    exact ⟨by simp [hashE, hh], by simp [exprEqFull, hashE, hh, hc2]⟩
  | unaryFunction d n o cs =>
    cases b <;> simp only [sameKindFieldsEq, Bool.and_eq_true, beq_iff_eq, Bool.false_eq_true] at hk
    rename_i d2 n2 o2 cs2
    obtain ⟨⟨hd, hn⟩, ho⟩ := hk
    subst hd hn ho
    have hc2 : exprEqFullList cs cs2 = true := by simpa [childrenOf] using hc
    have hh := exprEqFullList_hash_eq _ _ hc2
    exact ⟨by simp [hashE, hh], by simp [exprEqFull, hashE, hh, hc2]⟩
  | sort d o c =>
    cases b <;> simp only [sameKindFieldsEq, Bool.and_eq_true, beq_iff_eq, Bool.false_eq_true] at hk
    rename_i d2 o2 c2
    obtain ⟨hd, ho⟩ := hk
    subst hd ho
    have hc2 : exprEqFull c c2 = true := by simpa [childrenOf, exprEqFullList] using hc
    have hh := exprEqFull_hash_eq _ _ hc2
    exact ⟨by simp [hashE, hh], by simp [exprEqFull, hashE, hh, hc2]⟩
  | sortBy d o c bs =>
    cases b <;> simp only [sameKindFieldsEq, Bool.and_eq_true, beq_iff_eq, Bool.false_eq_true] at hk
    rename_i d2 o2 c2 bs2
    obtain ⟨hd, ho⟩ := hk
    subst hd ho
    obtain ⟨hc2, hbs⟩ : exprEqFull c c2 = true ∧ exprEqFullList bs bs2 = true := by
      simpa [childrenOf, exprEqFullList] using hc
    have hh := exprEqFull_hash_eq _ _ hc2
    have hhs := exprEqFullList_hash_eq _ _ hbs
    exact ⟨by simp [hashE, hh, hhs], by simp [exprEqFull, hashE, hh, hhs, hc2, hbs]⟩
  | gather d v i =>
    cases b <;> simp only [sameKindFieldsEq, Bool.and_eq_true, beq_iff_eq, Bool.false_eq_true] at hk
    rename_i d2 v2 i2
    obtain rfl := hk
    obtain ⟨hv, hi⟩ : exprEqFull v v2 = true ∧ exprEqFull i i2 = true := by
      simpa [childrenOf, exprEqFullList] using hc
    have hh1 := exprEqFull_hash_eq _ _ hv
    have hh2 := exprEqFull_hash_eq _ _ hi
    exact ⟨by simp [hashE, hh1, hh2], by simp [exprEqFull, hashE, hh1, hh2, hv, hi]⟩
  | filter d v m =>
    cases b <;> simp only [sameKindFieldsEq, Bool.and_eq_true, beq_iff_eq, Bool.false_eq_true] at hk
    rename_i d2 v2 m2
    obtain rfl := hk
    obtain ⟨hv, hm⟩ : exprEqFull v v2 = true ∧ exprEqFull m m2 = true := by
      simpa [childrenOf, exprEqFullList] using hc
    have hh1 := exprEqFull_hash_eq _ _ hv
    have hh2 := exprEqFull_hash_eq _ _ hm
    exact ⟨by simp [hashE, hh1, hh2], by simp [exprEqFull, hashE, hh1, hh2, hv, hm]⟩
  | cast d c =>
    cases b <;> simp only [sameKindFieldsEq, Bool.and_eq_true, beq_iff_eq, Bool.false_eq_true] at hk
    rename_i d2 c2
    obtain rfl := hk
    have hc2 : exprEqFull c c2 = true := by simpa [childrenOf, exprEqFullList] using hc
    have hh := exprEqFull_hash_eq _ _ hc2
    exact ⟨by simp [hashE, hh], by simp [exprEqFull, hashE, hh, hc2]⟩
  | agg d n o cs =>
    cases b <;> simp only [sameKindFieldsEq, Bool.and_eq_true, beq_iff_eq, Bool.false_eq_true] at hk
    rename_i d2 n2 o2 cs2
    obtain ⟨⟨hd, hn⟩, ho⟩ := hk
    subst hd hn ho
    have hc2 : exprEqFullList cs cs2 = true := by simpa [childrenOf] using hc
    have hh := exprEqFullList_hash_eq _ _ hc2
    exact ⟨by simp [hashE, hh], by simp [exprEqFull, hashE, hh, hc2]⟩
  | ternary d w t e =>
    cases b <;> simp only [sameKindFieldsEq, Bool.and_eq_true, beq_iff_eq, Bool.false_eq_true] at hk
    rename_i d2 w2 t2 e2
    obtain rfl := hk
    obtain ⟨⟨hw, ht⟩, he⟩ : (exprEqFull w w2 = true ∧ exprEqFull t t2 = true) ∧
        exprEqFull e e2 = true := by
      simpa [childrenOf, exprEqFullList, and_assoc] using hc
    have hh1 := exprEqFull_hash_eq _ _ hw
    have hh2 := exprEqFull_hash_eq _ _ ht
    have hh3 := exprEqFull_hash_eq _ _ he
    exact ⟨by simp [hashE, hh1, hh2, hh3],
           by simp [exprEqFull, hashE, hh1, hh2, hh3, hw, ht, he]⟩
  | binOp d op l r =>
    cases b <;> simp only [sameKindFieldsEq, Bool.and_eq_true, beq_iff_eq, Bool.false_eq_true] at hk
    rename_i d2 op2 l2 r2
    obtain ⟨hd, hop⟩ := hk
    subst hd hop
    obtain ⟨hl, hr⟩ : exprEqFull l l2 = true ∧ exprEqFull r r2 = true := by
      simpa [childrenOf, exprEqFullList] using hc
    have hh1 := exprEqFull_hash_eq _ _ hl
    have hh2 := exprEqFull_hash_eq _ _ hr
    exact ⟨by simp [hashE, hh1, hh2], by simp [exprEqFull, hashE, hh1, hh2, hl, hr]⟩

/-- Claim C2 (amended): for every node kind except LiteralColumn, equal
kind, non-child fields and pairwise-equal children give hash(a) ==
hash(b) and a == b; for LiteralColumn this additionally needs the
identical payload object, with which both hold; and for any
difference in a non-child field or a child, a != b, for every kind. -/
theorem expr_eq_hash_amended :
    (∀ a b : PExpr, isLiteralColumn a = false →
      sameKindFieldsEq a b = true →
      exprEqFullList (childrenOf a) (childrenOf b) = true →
      hashE a = hashE b ∧ exprEqFull a b = true) ∧
    (∀ (d : DType) (p : Payload),
      hashE (.literalColumn d p) = hashE (.literalColumn d p) ∧
      exprEqFull (.literalColumn d p) (.literalColumn d p) = true) ∧
    (∀ a b : PExpr,
      sameKindFieldsEq a b = false ∨ exprEqFullList (childrenOf a) (childrenOf b) = false →
      exprEqFull a b = false) := by
  refine ⟨eq_hash_part1, ?_, ?_⟩
  · exact fun d p => ⟨rfl, by simp [exprEqFull]⟩
  · intro a b h
    cases heq : exprEqFull a b
    · rfl
    · have h2 := exprEqFull_imp a b heq
      rcases h with h | h
      · exact absurd h2.1 (by simp [h])
      · exact absurd h2.2 (by simp [h])

/-- Counterexample for C2 as stated: two LiteralColumn nodes with equal
dtype and value-equal payload cells but distinct payload objects have
equal non-child fields (and no children) yet different hashes and
compare unequal, because LiteralColumn hashes by payload identity. -/
theorem literal_column_identity_cex :
    sameKindFieldsEq (PExpr.literalColumn .int64 ⟨0, [Option.some (.int 5)]⟩)
        (PExpr.literalColumn .int64 ⟨1, [Option.some (.int 5)]⟩) = true ∧
    exprEqFullList
        (childrenOf (PExpr.literalColumn .int64 ⟨0, [Option.some (.int 5)]⟩))
        (childrenOf (PExpr.literalColumn .int64 ⟨1, [Option.some (.int 5)]⟩)) = true ∧
    hashE (PExpr.literalColumn .int64 ⟨0, [Option.some (.int 5)]⟩) ≠
      hashE (PExpr.literalColumn .int64 ⟨1, [Option.some (.int 5)]⟩) ∧
    exprEqFull (PExpr.literalColumn .int64 ⟨0, [Option.some (.int 5)]⟩)
        (PExpr.literalColumn .int64 ⟨1, [Option.some (.int 5)]⟩) = false := by
  refine ⟨by decide, by decide, by decide, by decide⟩

/-- Witness for C2: a cast node compares equal and hash-equal to a
field-and-child-equal copy, and two column references differing in a
field compare unequal. -/
theorem expr_eq_hash_amended_witness :
    (hashE (PExpr.cast .int64 (.col .int32 "a")) = hashE (PExpr.cast .int64 (.col .int32 "a")) ∧
      exprEqFull (PExpr.cast .int64 (.col .int32 "a")) (PExpr.cast .int64 (.col .int32 "a")) = true) ∧
    exprEqFull (PExpr.col .int64 "a") (PExpr.col .int64 "b") = false := by
  constructor
  · exact expr_eq_hash_amended.1 (PExpr.cast .int64 (.col .int32 "a"))
      (PExpr.cast .int64 (.col .int32 "a")) (by decide) (by decide) (by decide)
  · exact expr_eq_hash_amended.2.2 (PExpr.col .int64 "a") (PExpr.col .int64 "b")
      (Or.inl (by decide))

/-- Witness for C1: concrete instances of the strict and non-strict
Strptime behaviours. -/
theorem strptime_strict_fallthrough_witness :
    strptimeEvaluate (fun _ => true) (fun _ => 0) true [Option.some "x"]
      ≠ .ok [Option.some 0] ∧
    strptimeEvaluate (fun _ => true) (fun _ => 0) false [Option.some "x"]
      ≠ .error .notImplemented :=
  ⟨strptime_strict_fallthrough.1 (fun _ => true) (fun _ => 0) [Option.some "x"] [Option.some 0],
   strptime_strict_fallthrough.2.1 (fun _ => true) (fun _ => 0) [Option.some "x"] .notImplemented⟩

/-- Witness for C5: the Kleene example any([true, null]) evaluating to
true. -/
theorem any_all_kleene_witness :
    booleanAnyAll true false [Option.some true, Option.none] = [Option.some true] :=
  any_all_kleene.2.1

/-- Witness for C10: rounding a concrete descending-sorted column keeps
its metadata. -/
theorem round_preserves_sortedness_witness :
    (roundEvaluate (fun v => v)
        { cells := [Option.some (.int 3)], isSorted := true,
          order := .descending, nullOrder := .after }).isSorted = true :=
  (round_preserves_sortedness (fun v => v)
      { cells := [Option.some (.int 3)], isSorted := true,
        order := .descending, nullOrder := .after }).1.trans rfl
